import Mathlib

/-!
# Shallow embedding of the UNOTE project state engine

This file embeds, in Lean, the state/coordination core of the dashboard
application (the widget tree, the per-breakpoint grid layouts, the grid
placement solver, the folder height calculator, the serialization sanitizer,
the bounded undo history, and the mutation handlers), and proves the
spec-level properties about them.

Modelling conventions:
* JavaScript numbers that hold grid coordinates, sizes and pixel counts are
  modelled as `Int` (the code only ever works with integral values there).
* A JavaScript object used as a string-keyed map (the per-breakpoint layout
  maps) is modelled as an association list `List (String × _)` iterated in
  insertion order, looked up by first key occurrence.
* An optional field that the code distinguishes between "absent" and
  "present" (`!== undefined`) is an `Option`; a field that the code tests
  for truthiness keeps the JS semantics explicitly (`0`, `""` and `false`
  are falsy).
* `JSON.parse(JSON.stringify(x))` on an already-sanitized project is the
  identity on this model (all modelled data is plainly serializable), so
  `safeDeepClone` is modelled as `cleanProjectForSerialization`.
-/

/-- A react-grid-layout item: `{i, x, y, w, h, minW?, minH?, maxW?, maxH?,
isDraggable?, isResizable?, static?}`. -/
structure LayoutItem where
  i : String
  x : Int
  y : Int
  w : Int
  h : Int
  minW : Option Int := none
  minH : Option Int := none
  maxW : Option Int := none
  maxH : Option Int := none
  isDraggable : Option Bool := none
  isResizable : Option Bool := none
  static : Option Bool := none
deriving DecidableEq, Repr

/-- A per-breakpoint layout map `{ [breakpoint: string]: Layout[] }`,
as an association list in key-insertion order. -/
abbrev Layouts := List (String × List LayoutItem)

/-- The closed enum of widget types (`WidgetType` in `types.ts`). -/
inductive WidgetType where
  | plan | pie | line | text | title | checklist | image | article
  | folder | table | goal | file
deriving DecidableEq, Repr

/-- `FolderData`: the folder widget variant payload. -/
structure FolderData where
  title : String
  isCollapsed : Bool
  childrenLayouts : Option Layouts := none
  expandedH : Option Int := none
deriving DecidableEq, Repr

/-- A widget's variant payload.  Only the folder variant is ever inspected
by the embedded operations (the sanitizer shallow-copies every other
payload wholesale, and no other handler reads payload internals), so the
non-folder payloads are carried opaquely. -/
inductive WidgetData where
  | folder (fd : FolderData)
  | other (payload : String)
deriving DecidableEq, Repr

/-- `Widget` from `types.ts`.  `assignedUser : string | null | undefined`
is an `Option (Option String)`: the outer layer is presence, the inner is
null vs a uid. -/
structure Widget where
  id : String
  type : WidgetType
  data : WidgetData
  parentId : Option String := none
  minW : Int
  minH : Int
  assignedUser : Option (Option String) := none
deriving DecidableEq, Repr

/-- `Project` from `types.ts` (member roles kept as plain strings). -/
structure Project where
  id : String
  name : String
  emoji : String
  owner_uid : String
  member_uids : List (String × String)
  participant_uids : List String
  isTeamProject : Bool
  widgets : List Widget
  layouts : Layouts
deriving DecidableEq, Repr

/-! ## Serialization sanitizer (`cleanLayoutItem`, `cleanAllLayouts`,
`cleanProjectForSerialization`) -/

/-- JS truthiness filter for an optional numeric field:
`if (v) cleaned.f = v` keeps the field only when it is present and
nonzero. -/
def truthyNum : Option Int → Option Int
  | some v => if v = 0 then none else some v
  | none => none

/-- JS truthiness filter for an optional boolean field:
`if (b) cleaned.f = b` keeps the field only when it is `true`. -/
def truthyBool : Option Bool → Option Bool
  | some b => if b then some b else none
  | none => none

/-- JS truthiness filter for an optional string field:
`if (s) cleaned.f = s` keeps the field only when it is present and
nonempty. -/
def truthyStr : Option String → Option String
  | some s => if s = "" then none else some s
  | none => none

/-- `cleanLayoutItem`: reduce a layout entry to the persisted subset.
`i,x,y,w,h` always; `minW/minH/maxW/maxH` only if truthy; `isDraggable` and
`isResizable` only if not `undefined`; `static` only if truthy. -/
def cleanLayoutItem (l : LayoutItem) : LayoutItem :=
  { i := l.i, x := l.x, y := l.y, w := l.w, h := l.h,
    minW := truthyNum l.minW, minH := truthyNum l.minH,
    maxW := truthyNum l.maxW, maxH := truthyNum l.maxH,
    isDraggable := l.isDraggable, isResizable := l.isResizable,
    static := truthyBool l.static }

/-- `cleanAllLayouts`: apply `cleanLayoutItem` to every entry of every
breakpoint. -/
def cleanAllLayouts (allLayouts : Layouts) : Layouts :=
  allLayouts.map (fun e => (e.1, e.2.map cleanLayoutItem))

/-- The folder-specific part of `cleanWidget`: when the widget's type is
`Folder`, its payload's `childrenLayouts` (if present) are cleaned; every
other payload is shallow-copied unchanged. -/
def cleanWidgetData (t : WidgetType) (d : WidgetData) : WidgetData :=
  match t, d with
  | WidgetType.folder, WidgetData.folder fd =>
      WidgetData.folder { fd with childrenLayouts := fd.childrenLayouts.map cleanAllLayouts }
  | _, d => d

/-- `cleanWidget` (the inner helper of `cleanProjectForSerialization`):
retains `id`, `type`, `data`, `minW`, `minH`; `parentId` only if truthy;
`assignedUser` only if not `undefined`. -/
def cleanWidget (w : Widget) : Widget :=
  { id := w.id, type := w.type, data := cleanWidgetData w.type w.data,
    parentId := truthyStr w.parentId,
    minW := w.minW, minH := w.minH,
    assignedUser := w.assignedUser }

/-- `cleanProjectForSerialization`: retain only the schema fields of the
project, cleaning every widget and every top-level layout entry. -/
def cleanProjectForSerialization (project : Project) : Project :=
  { id := project.id, name := project.name, emoji := project.emoji,
    owner_uid := project.owner_uid, member_uids := project.member_uids,
    participant_uids := project.participant_uids,
    isTeamProject := project.isTeamProject,
    widgets := project.widgets.map cleanWidget,
    layouts := cleanAllLayouts project.layouts }

/-! ## History manager (`MAX_HISTORY_LENGTH`, `pushStateToHistory`,
`handleUndo`) -/

/-- `MAX_HISTORY_LENGTH = 20`. -/
def MAX_HISTORY_LENGTH : Nat := 20

/-- A history entry `{ projectId, projectState }`. -/
structure HistoryEntry where
  projectId : String
  projectState : Project
deriving DecidableEq, Repr

/-- The snapshot pushed for the active project. `safeDeepClone` is
`cleanProjectForSerialization` followed by a JSON round-trip, which is the
identity on this model. -/
def historyEntryOf (activeProject : Project) : HistoryEntry :=
  { projectId := activeProject.id,
    projectState := cleanProjectForSerialization activeProject }

/-- `pushStateToHistory`: append the snapshot; when the stack exceeds
`MAX_HISTORY_LENGTH`, evict the oldest entry (`newHistory.slice(1)`). -/
def pushStateToHistory (history : List HistoryEntry) (activeProject : Project) :
    List HistoryEntry :=
  let newHistory := history ++ [historyEntryOf activeProject]
  if MAX_HISTORY_LENGTH < newHistory.length then newHistory.drop 1 else newHistory

/-- `[...history].reverse().find(h => h.projectId === activeProjectId)`. -/
def findLastRelevant (history : List HistoryEntry) (activeProjectId : String) :
    Option HistoryEntry :=
  history.reverse.find? (fun h => decide (h.projectId = activeProjectId))

/-- Drop the first element satisfying the predicate, keeping the rest.
`prev.filter(h => h !== lastRelevantState)` removes, by reference
inequality, exactly the entry found by `findLastRelevant` — the last entry
for the active project, i.e. the first match on the reversed stack. -/
def dropFirstWhere (pred : HistoryEntry → Bool) : List HistoryEntry → List HistoryEntry
  | [] => []
  | h :: t => if pred h then t else h :: dropFirstWhere pred t

/-- `handleUndo`: select the most recent entry for the active project,
overwrite the remote project document with its snapshot (the `updateDoc`
spread carries every schema field, so every field of the remote state is
replaced), and remove exactly that entry from the stack.  Returns the new
stack and the resulting remote project state. -/
def handleUndo (history : List HistoryEntry) (activeProjectId : String)
    (remote : Project) : List HistoryEntry × Project :=
  match findLastRelevant history activeProjectId with
  | none => (history, remote)
  | some e =>
      ((dropFirstWhere (fun h => decide (h.projectId = activeProjectId))
          history.reverse).reverse,
       e.projectState)

/-! ## First-match update

JS `find`/`findIndex` returns a live reference into the array; mutating it
mutates exactly the first matching element.  `updateFirstWhere` models
that. -/

/-- Replace the first element satisfying `pred` by its image under `f`. -/
def updateFirstWhere {α : Type} (pred : α → Bool) (f : α → α) : List α → List α
  | [] => []
  | a :: t => if pred a then f a :: t else a :: updateFirstWhere pred f t

/-- Reading folder fields through the cast
`widget as Widget & { data: FolderData }`: on a non-folder payload every
`FolderData` field reads as `undefined`, i.e. falsy. -/
def asFolderData : WidgetData → FolderData
  | WidgetData.folder fd => fd
  | WidgetData.other _ =>
      { title := "", isCollapsed := false, childrenLayouts := none, expandedH := none }

/-! ## Widget removal (`handleRemoveWidget`) -/

/-- Strip every nested-layout reference to `id` from a parent folder's
`childrenLayouts`, in every breakpoint (the parent branch of
`handleRemoveWidget`).  A parent without `childrenLayouts` is left
unchanged. -/
def stripChildFromFolder (id : String) (pw : Widget) : Widget :=
  match pw.data with
  | WidgetData.folder fd =>
      match fd.childrenLayouts with
      | some ls =>
          { pw with
            data := WidgetData.folder { fd with
              childrenLayouts :=
                some (ls.map (fun e => (e.1, e.2.filter (fun l => !decide (l.i = id))))) } }
      | none => pw
  | WidgetData.other _ => pw

/-- `currentWidgets` of `handleRemoveWidget`: when the removal target has a
(truthy) `parentId`, strip the target's id from that parent folder's nested
layouts. -/
def removalBase (p : Project) (id : String) : List Widget :=
  match (cleanProjectForSerialization p).widgets.find? (fun w => decide (w.id = id)) with
  | some w =>
      match w.parentId with
      | some pid =>
          if pid = "" then (cleanProjectForSerialization p).widgets
          else updateFirstWhere (fun pw => decide (pw.id = pid)) (stripChildFromFolder id)
                (cleanProjectForSerialization p).widgets
      | none => (cleanProjectForSerialization p).widgets
  | none => (cleanProjectForSerialization p).widgets

/-- `widgetToRemove?.type === WidgetType.Folder`. -/
def removalTargetIsFolder (p : Project) (id : String) : Bool :=
  match (cleanProjectForSerialization p).widgets.find? (fun w => decide (w.id = id)) with
  | some w => decide (w.type = WidgetType.folder)
  | none => false

/-- The set of removed ids (`widgetsToRemove`): the target plus — when the
target is a folder — every widget whose `parentId` equals the target id. -/
def removedWidgetIds (p : Project) (id : String) : List String :=
  id :: (if removalTargetIsFolder p id then
          ((cleanProjectForSerialization p).widgets.filter
              (fun w => decide (w.parentId = some id))).map Widget.id
        else [])

/-- `handleRemoveWidget`: drop the removed widgets from the stripped widget
list and patch only the `widgets` field of the project document (the
top-level `layouts` are not part of the write). -/
def handleRemoveWidget (p : Project) (id : String) : Project :=
  { p with widgets :=
      (removalBase p id).filter (fun w => !decide (w.id ∈ removedWidgetIds p id)) }

/-- A concrete folder widget used to instantiate the removal theorem. -/
def removalDemoFolder : Widget :=
  { id := "f", type := WidgetType.folder,
    data := WidgetData.folder
      { title := "t", isCollapsed := false,
        childrenLayouts := some [("lg", [{ i := "c1", x := 0, y := 0, w := 2, h := 2 }])],
        expandedH := none },
    parentId := none, minW := 2, minH := 2, assignedUser := none }

/-- A concrete project containing `removalDemoFolder`, one child of it and
one unrelated widget. -/
def removalDemoProject : Project :=
  { id := "p", name := "n", emoji := "e", owner_uid := "o",
    member_uids := [], participant_uids := [], isTeamProject := false,
    widgets :=
      [removalDemoFolder,
       { id := "c1", type := WidgetType.text, data := WidgetData.other "x",
         parentId := some "f", minW := 1, minH := 1, assignedUser := none },
       { id := "w2", type := WidgetType.text, data := WidgetData.other "y",
         parentId := none, minW := 1, minH := 1, assignedUser := none }],
    layouts := [("lg", [{ i := "f", x := 0, y := 0, w := 4, h := 6 },
                        { i := "w2", x := 0, y := 6, w := 1, h := 1 }])] }

/-! ## Grid placement solver

The placement scan of `handleAddWidget` (also used by `handleCopyWidget`):

```
for (let y = 0; !positionFound; y++) {
  for (let x = 0; x <= gridWidth - w; x++) { ...first non-colliding... }
  if (y > 200) { fallback to (0, maxY); break; }
}
```

The `if (y > 200)` check runs after the inner loop, so a cell found on the
first row past 200 is overwritten by the fallback: the effective behaviour
is "first free cell in row-major order over rows 0..200, else
`(0, maxY)`". -/

/-- `isColliding`: half-open rectangle overlap of `item` with any element
of `items` (collision iff the x-intervals and the y-intervals both
intersect with nonzero length). -/
def isColliding (item : LayoutItem) (items : List LayoutItem) : Bool :=
  items.any (fun ex =>
    decide (item.x < ex.x + ex.w ∧ item.x + item.w > ex.x ∧
            item.y < ex.y + ex.h ∧ item.y + item.h > ex.y))

/-- Overlap of two placed rectangles, as a relation (used to state the
non-overlap hypothesis on existing layouts). -/
def rectOverlap (a b : LayoutItem) : Prop :=
  a.x < b.x + b.w ∧ a.x + a.w > b.x ∧ a.y < b.y + b.h ∧ a.y + a.h > b.y

instance (a b : LayoutItem) : Decidable (rectOverlap a b) := by
  unfold rectOverlap; infer_instance

/-- No two rectangles of the layout overlap. -/
def nonOverlapping (L : List LayoutItem) : Prop :=
  L.Pairwise (fun a b => ¬ rectOverlap a b)

instance (L : List LayoutItem) : Decidable (nonOverlapping L) := by
  unfold nonOverlapping; infer_instance

/-- The columns tried in one row: `for (x = 0; x <= gridWidth - w; x++)`
(empty when `w > gridWidth`). -/
def xCandidates (w C : Int) : List Int :=
  (List.range (C - w + 1).toNat).map Int.ofNat

/-- The first free column of row `y`, if any. -/
def findFreeX (item0 : LayoutItem) (C : Int) (L : List LayoutItem) (y : Int) :
    Option Int :=
  (xCandidates item0.w C).find? (fun x => !isColliding { item0 with x := x, y := y } L)

/-- The rows whose finds survive the scan: `y = 0..200`. -/
def scanRows : List Int := (List.range 201).map Int.ofNat

/-- `maxY`: the maximum bottom edge `y + h` over the layout (`0` if none). -/
def maxBottom (L : List LayoutItem) : Int :=
  L.foldl (fun m l => max m (l.y + l.h)) 0

/-- The placement scan: the first non-colliding cell in row-major order over
rows `0..200`, else the fallback `(0, maxY)`. -/
def place (item0 : LayoutItem) (C : Int) (L : List LayoutItem) : Int × Int :=
  match scanRows.findSome? (fun y => (findFreeX item0 C L y).map (fun x => (x, y))) with
  | some c => c
  | none => (0, maxBottom L)

/-- `layout.push({ ...newLayoutItemDefaults, x: newX, y: newY })`. -/
def addItem (item0 : LayoutItem) (C : Int) (L : List LayoutItem) : List LayoutItem :=
  L ++ [{ item0 with x := (place item0 C L).1, y := (place item0 C L).2 }]

/-- The fresh top-level layout entry built by `handleAddWidget`:
`{i, w: min(isFolder ? w : minW, gridWidth), h: isFolder ? h : minH,
minW: min(minW, gridWidth), minH}` (at `x = 0, y = 0` before placement). -/
def newTopLevelLayoutItem (wid : String) (isFolderType : Bool)
    (defW defH defMinW defMinH C : Int) : LayoutItem :=
  { i := wid, x := 0, y := 0,
    w := min (if isFolderType then defW else defMinW) C,
    h := if isFolderType then defH else defMinH,
    minW := some (min defMinW C), minH := some defMinH }

/-- A concrete footprint-(4,2) item for instantiating the placement
soundness theorem. -/
def placeDemoItem : LayoutItem := { i := "b", x := 0, y := 0, w := 4, h := 2 }

/-- A concrete non-overlapping layout for instantiating the placement
soundness theorem. -/
def placeDemoLayout : List LayoutItem := [{ i := "a", x := 0, y := 0, w := 4, h := 2 }]

/-- A concrete `1 × 1` item for instantiating the fallback theorem. -/
def packedDemoItem : LayoutItem := { i := "b", x := 0, y := 0, w := 1, h := 1 }

/-- A single-column layout packed for 250 rows (every scanned cell
collides). -/
def packedDemoLayout : List LayoutItem := [{ i := "a", x := 0, y := 0, w := 1, h := 250 }]

/-! ## Folder collapse/expand (`handleToggleFolder`)

`WIDGET_DEFAULTS` lives in `constants.ts`, which is not among the sources;
the two folder defaults the handler reads (`WIDGET_DEFAULTS[Folder].h` and
`WIDGET_DEFAULTS[Folder].minH`) are taken as parameters `defH` and
`defMinH`. -/

/-- `folderData.expandedH || WIDGET_DEFAULTS[Folder].h` (JS `||`:
`undefined` and `0` both fall back to the default). -/
def expandHOf (defH : Int) (e : Option Int) : Int :=
  match e with
  | some v => if v = 0 then defH else v
  | none => defH

/-- `folder.minH || WIDGET_DEFAULTS[Folder].minH`. -/
def collapsedHOf (defMinH : Int) (folder : Widget) : Int :=
  if folder.minH = 0 then defMinH else folder.minH

/-- Set the height of the first layout entry with id `wid` (the element
returned by `layout.find(l => l.i === widgetId)` is mutated in place). -/
def setFolderItemH (newH : Int) (wid : String) (L : List LayoutItem) : List LayoutItem :=
  updateFirstWhere (fun l => decide (l.i = wid)) (fun l => { l with h := newH }) L

/-- Apply `setFolderItemH` at every breakpoint of the layouts map. -/
def toggleLayouts (newH : Int) (wid : String) (ls : Layouts) : Layouts :=
  ls.map (fun e => (e.1, setFolderItemH newH wid e.2))

/-- The value left in the single `folderData.expandedH` by the collapse
loop: the assignment runs once per breakpoint whose layout contains the
folder's entry, each time overwriting the previous one, so the cached
value is the pre-collapse height of the last such entry. -/
def cachedCollapseH (wid : String) (ls : Layouts) : Option Int :=
  (ls.filterMap (fun e => (e.2.find? (fun l => decide (l.i = wid))).map LayoutItem.h)).getLast?

/-- `handleToggleFolder` (lookup by `findIndex(w => w.id === widgetId &&
w.type === Folder)`, no-op when absent): flip `isCollapsed`; on collapse
cache the current height into the shared `expandedH` and drop every
breakpoint's entry to the folder minimum; on expand set every breakpoint's
entry to `expandedH || WIDGET_DEFAULTS[Folder].h`. -/
def handleToggleFolder (defH defMinH : Int) (p : Project) (wid : String) : Project :=
  match (cleanProjectForSerialization p).widgets.find?
      (fun w => decide (w.id = wid ∧ w.type = WidgetType.folder)) with
  | none => p
  | some folder =>
      let fd := asFolderData folder.data
      let newIsCollapsed := !fd.isCollapsed
      let newH := if newIsCollapsed then collapsedHOf defMinH folder
                  else expandHOf defH fd.expandedH
      let newExpandedH :=
        if newIsCollapsed then
          match cachedCollapseH wid (cleanProjectForSerialization p).layouts with
          | some hh => some hh
          | none => fd.expandedH
        else fd.expandedH
      { p with
        widgets := updateFirstWhere
            (fun w => decide (w.id = wid ∧ w.type = WidgetType.folder))
            (fun w => { w with
              data := WidgetData.folder { fd with
                isCollapsed := newIsCollapsed, expandedH := newExpandedH } })
            (cleanProjectForSerialization p).widgets,
        layouts := toggleLayouts newH wid (cleanProjectForSerialization p).layouts }

/-! ## Folder height recomputation (`handleChildrenLayoutChange`) -/

/-- `GRID_COLS = { lg: 12, md: 10, sm: 6, xs: 2, xxs: 1 }`. -/
def GRID_COLS : List (String × Int) :=
  [("lg", 12), ("md", 10), ("sm", 6), ("xs", 2), ("xxs", 1)]

/-- `NESTED_GRID_COLS = { lg: 24, md: 20, sm: 12, xs: 4, xxs: 2 }`. -/
def NESTED_GRID_COLS : List (String × Int) :=
  [("lg", 24), ("md", 20), ("sm", 12), ("xs", 4), ("xxs", 2)]

/-- `Math.ceil(a / b)` for integral `a` and positive `b`. -/
def mathCeilDiv (a b : Int) : Int := -(Int.ediv (-a) b)

/-- Object lookup `layouts[bp]` on the association-list model. -/
def lookupBp (ls : Layouts) (bp : String) : Option (List LayoutItem) :=
  (ls.find? (fun e => decide (e.1 = bp))).map Prod.snd

/-- The recomputed folder row-span at one breakpoint: start from the
folder default height (`WIDGET_DEFAULTS[Folder].h`, parameter
`folderDefH`); when the nested children layout is nonempty, convert its
bounding box to parent-grid rows with the fixed pixel constants
(nested row 21px / margin 8px, header 60px, vertical padding 32px,
parent row 50px / margin 16px, rounding up); the final height is
`max(folderDefH, newHeight)`. -/
def recomputeFolderItemH (folderDefH : Int) (childrenLayout : Option (List LayoutItem)) :
    Int :=
  let newHeight : Int :=
    match childrenLayout with
    | some cl =>
        if 0 < cl.length then
          let maxRows := cl.foldl (fun m l => max m (l.y + l.h)) 0
          let contentPixelHeight :=
            maxRows * 21 + (if 0 < maxRows then (maxRows - 1) * 8 else 0) + 32
          let totalPixelHeight := contentPixelHeight + 60
          mathCeilDiv (totalPixelHeight + 16) (50 + 16)
        else folderDefH
    | none => folderDefH
  max folderDefH newHeight

/-- One breakpoint step of `handleChildrenLayoutChange`: when the layouts
carry an entry for `bp` whose list contains the folder's item and the
folder is expanded, set that item's height to the recomputed value and
record the new height into `expandedH`. -/
def childLayoutHeightStep (folderDefH : Int) (folderId : String) (fdIsCollapsed : Bool)
    (ccl : Layouts) (acc : Layouts × Option Int) (bp : String) : Layouts × Option Int :=
  match lookupBp acc.1 bp with
  | none => acc
  | some layout =>
      match layout.find? (fun l => decide (l.i = folderId)) with
      | none => acc
      | some _ =>
          if fdIsCollapsed then acc
          else
            let newH := recomputeFolderItemH folderDefH (lookupBp ccl bp)
            (updateFirstWhere (fun e => decide (e.1 = bp))
                (fun e => (e.1, setFolderItemH newH folderId e.2)) acc.1,
             some newH)

/-- `handleChildrenLayoutChange`: store the cleaned children layouts into
the folder's data, recompute the folder's top-level row-span at every
breakpoint of `GRID_COLS`, and write both `widgets` and `layouts`. -/
def handleChildrenLayoutChange (folderDefH : Int) (p : Project) (folderId : String)
    (allChildrenLayouts : Layouts) : Project :=
  match (cleanProjectForSerialization p).widgets.find?
      (fun w => decide (w.id = folderId)) with
  | none => p
  | some folder =>
      let fd := asFolderData folder.data
      let res := (GRID_COLS.map Prod.fst).foldl
          (childLayoutHeightStep folderDefH folderId fd.isCollapsed
            (cleanAllLayouts allChildrenLayouts))
          ((cleanProjectForSerialization p).layouts, fd.expandedH)
      { p with
        widgets := updateFirstWhere (fun w => decide (w.id = folderId))
            (fun w => { w with
              data := WidgetData.folder { fd with
                childrenLayouts := some (cleanAllLayouts allChildrenLayouts),
                expandedH := res.2 } })
            (cleanProjectForSerialization p).widgets,
        layouts := res.1 }

/-- A project whose folder has different "lg" and "md" heights — the input
refuting per-breakpoint collapse/expand restoration. -/
def toggleCexProject : Project :=
  { id := "p", name := "n", emoji := "e", owner_uid := "o",
    member_uids := [], participant_uids := [], isTeamProject := false,
    widgets :=
      [{ id := "f", type := WidgetType.folder,
         data := WidgetData.folder
           { title := "t", isCollapsed := false,
             childrenLayouts := none, expandedH := none },
         parentId := none, minW := 2, minH := 2, assignedUser := none }],
    layouts := [("lg", [{ i := "f", x := 0, y := 0, w := 4, h := 3 }]),
                ("md", [{ i := "f", x := 0, y := 0, w := 4, h := 4 }])] }

/-- The folder widget of `toggleDemoProject`. -/
def toggleDemoFolder : Widget :=
  { id := "f", type := WidgetType.folder,
    data := WidgetData.folder
      { title := "t", isCollapsed := false,
        childrenLayouts := none, expandedH := none },
    parentId := none, minW := 2, minH := 2, assignedUser := none }

/-- A sanitized project whose folder has the same height at every
breakpoint — the witness input for the amended restoration theorem. -/
def toggleDemoProject : Project :=
  { id := "p", name := "n", emoji := "e", owner_uid := "o",
    member_uids := [], participant_uids := [], isTeamProject := false,
    widgets := [toggleDemoFolder],
    layouts := [("lg", [{ i := "f", x := 0, y := 0, w := 4, h := 3 }]),
                ("md", [{ i := "f", x := 0, y := 0, w := 4, h := 3 }])] }

/-- The folder widget of `heightDemoProject`. -/
def heightDemoFolder : Widget :=
  { id := "f", type := WidgetType.folder,
    data := WidgetData.folder
      { title := "t", isCollapsed := false,
        childrenLayouts := none, expandedH := none },
    parentId := none, minW := 2, minH := 2, assignedUser := none }

/-- A project with an expanded folder placed at the "lg" breakpoint — the
witness input for the empty-children height theorem. -/
def heightDemoProject : Project :=
  { id := "p", name := "n", emoji := "e", owner_uid := "o",
    member_uids := [], participant_uids := [], isTeamProject := false,
    widgets := [heightDemoFolder],
    layouts := [("lg", [{ i := "f", x := 0, y := 0, w := 4, h := 9 }])] }

theorem truthyNum_idem (o : Option Int) : truthyNum (truthyNum o) = truthyNum o := by
  cases o with
  | none => rfl
  | some v =>
    by_cases h : v = 0 <;> simp [truthyNum, h]

theorem truthyBool_idem (o : Option Bool) : truthyBool (truthyBool o) = truthyBool o := by
  cases o with
  | none => rfl
  | some b => cases b <;> simp [truthyBool]

theorem truthyStr_idem (o : Option String) : truthyStr (truthyStr o) = truthyStr o := by
  cases o with
  | none => rfl
  | some s =>
    by_cases h : s = "" <;> simp [truthyStr, h]

theorem cleanLayoutItem_idem (l : LayoutItem) :
    cleanLayoutItem (cleanLayoutItem l) = cleanLayoutItem l := by
  simp [cleanLayoutItem, truthyNum_idem, truthyBool_idem]

theorem cleanAllLayouts_idem (ls : Layouts) :
    cleanAllLayouts (cleanAllLayouts ls) = cleanAllLayouts ls := by
  unfold cleanAllLayouts
  rw [List.map_map]
  apply List.map_congr_left
  intro e _
  simp [Function.comp, List.map_map]
  intro l _
  exact cleanLayoutItem_idem l

theorem cleanWidgetData_idem (t : WidgetType) (d : WidgetData) :
    cleanWidgetData t (cleanWidgetData t d) = cleanWidgetData t d := by
  cases t <;> cases d <;> try rfl
  case folder.folder fd =>
    cases h : fd.childrenLayouts with
    | none => simp [cleanWidgetData, h]
    | some ls => simp [cleanWidgetData, h, cleanAllLayouts_idem]

theorem cleanWidget_idem (w : Widget) : cleanWidget (cleanWidget w) = cleanWidget w := by
  simp [cleanWidget, cleanWidgetData_idem, truthyStr_idem]

/-- C3: the serialization sanitizer is idempotent:
`sanitize(sanitize(p)) = sanitize(p)` for every project `p`. -/
theorem cleanProjectForSerialization_idem (p : Project) :
    cleanProjectForSerialization (cleanProjectForSerialization p) =
      cleanProjectForSerialization p := by
  unfold cleanProjectForSerialization
  simp only [List.map_map, cleanAllLayouts_idem]
  congr 1
  apply List.map_congr_left
  intro w _
  exact cleanWidget_idem w

/-! ## Undo (C2) -/

theorem handleUndo_concat (base : List HistoryEntry) (P0 P1 : Project) :
    handleUndo (base ++ [historyEntryOf P0]) P0.id P1 =
      (base, cleanProjectForSerialization P0) := by
  unfold handleUndo findLastRelevant
  rw [List.reverse_append]
  simp only [List.reverse_cons, List.reverse_nil, List.nil_append, List.singleton_append]
  rw [List.find?_cons_of_pos _ (by simp [historyEntryOf])]
  simp [dropFirstWhere, historyEntryOf]

/-- C2: after a mutating operation pushes a snapshot of `P0` (yielding any
later state `P1`), `Undo` on the active project overwrites the remote state
with `sanitize(P0)` and removes exactly the pushed entry from the stack. -/
theorem handleUndo_after_push (history0 : List HistoryEntry) (P0 P1 : Project) :
    handleUndo (pushStateToHistory history0 P0) P0.id P1 =
      ((pushStateToHistory history0 P0).dropLast, cleanProjectForSerialization P0) := by
  unfold pushStateToHistory
  simp only []
  split
  case isTrue hlt =>
    have hne : 1 ≤ history0.length := by
      simp [MAX_HISTORY_LENGTH, List.length_append] at hlt
      omega
    rw [List.drop_append_of_le_length hne]
    rw [handleUndo_concat, List.dropLast_concat]
  case isFalse =>
    rw [handleUndo_concat, List.dropLast_concat]

/-! ## History cap (C4) -/

theorem pushStateToHistory_length_le (history : List HistoryEntry) (p : Project)
    (h : history.length ≤ MAX_HISTORY_LENGTH) :
    (pushStateToHistory history p).length ≤ MAX_HISTORY_LENGTH := by
  unfold pushStateToHistory
  simp only [MAX_HISTORY_LENGTH] at h ⊢
  split
  case isTrue hc =>
    simp only [List.length_drop, List.length_append, List.length_cons, List.length_nil]
    omega
  case isFalse hc =>
    simp only [List.length_append, List.length_cons, List.length_nil] at hc ⊢
    omega

theorem foldl_push_eq (ps : List Project) :
    ∀ history0 : List HistoryEntry, history0.length ≤ MAX_HISTORY_LENGTH →
      List.foldl pushStateToHistory history0 ps =
        (history0 ++ ps.map historyEntryOf).drop
          (history0.length + ps.length - MAX_HISTORY_LENGTH) := by
  induction ps with
  | nil =>
    intro h0 hle
    rw [List.foldl_nil, List.map_nil, List.append_nil, List.length_nil]
    rw [Nat.sub_eq_zero_of_le (by omega), List.drop_zero]
  | cons p tl ih =>
    intro h0 hle
    rw [List.foldl_cons, ih _ (pushStateToHistory_length_le _ _ hle)]
    by_cases hfull : MAX_HISTORY_LENGTH < h0.length + 1
    · have hpush : pushStateToHistory h0 p = (h0 ++ [historyEntryOf p]).drop 1 := by
        unfold pushStateToHistory
        simp only []
        rw [if_pos (by simp [List.length_append]; omega)]
      rw [hpush]
      have hlen1 : (1 : Nat) ≤ (h0 ++ [historyEntryOf p]).length := by
        simp [List.length_append]
      rw [← List.drop_append_of_le_length hlen1, List.drop_drop]
      have hlen2 : ((h0 ++ [historyEntryOf p]).drop 1).length = h0.length := by
        simp [List.length_drop, List.length_append]
      rw [hlen2]
      have harr : h0 ++ (historyEntryOf p :: tl.map historyEntryOf) =
          (h0 ++ [historyEntryOf p]) ++ tl.map historyEntryOf := by
        simp
      rw [List.map_cons, harr]
      congr 1
      simp [MAX_HISTORY_LENGTH] at hle hfull ⊢
      omega
    · have hpush : pushStateToHistory h0 p = h0 ++ [historyEntryOf p] := by
        unfold pushStateToHistory
        simp only []
        rw [if_neg (by simp [List.length_append]; omega)]
      rw [hpush]
      have harr : h0 ++ (historyEntryOf p :: tl.map historyEntryOf) =
          (h0 ++ [historyEntryOf p]) ++ tl.map historyEntryOf := by
        simp
      rw [List.map_cons, harr]
      congr 1
      simp [List.length_append]
      omega

/-- C4: after more than 20 pushes starting from an empty stack, the history
stack holds exactly the 20 most recent snapshots in push order (the oldest
entry is evicted first, regardless of project). -/
theorem history_cap (ps : List Project) (hlen : MAX_HISTORY_LENGTH < ps.length) :
    List.foldl pushStateToHistory [] ps =
        (ps.map historyEntryOf).drop (ps.length - MAX_HISTORY_LENGTH) ∧
      (List.foldl pushStateToHistory [] ps).length = MAX_HISTORY_LENGTH := by
  have h := foldl_push_eq ps [] (by simp)
  rw [List.nil_append, List.length_nil, Nat.zero_add] at h
  refine ⟨h, ?_⟩
  rw [h]
  simp [List.length_drop, List.length_map]
  omega

theorem history_cap_witness :
    MAX_HISTORY_LENGTH <
        (List.replicate 21 (⟨"p", "n", "e", "o", [], [], false, [], []⟩ : Project)).length ∧
      (List.foldl pushStateToHistory []
            (List.replicate 21 (⟨"p", "n", "e", "o", [], [], false, [], []⟩ : Project)) =
          ((List.replicate 21 (⟨"p", "n", "e", "o", [], [], false, [], []⟩ : Project)).map
              historyEntryOf).drop
            ((List.replicate 21 (⟨"p", "n", "e", "o", [], [], false, [], []⟩ : Project)).length -
              MAX_HISTORY_LENGTH) ∧
        (List.foldl pushStateToHistory []
              (List.replicate 21 (⟨"p", "n", "e", "o", [], [], false, [], []⟩ : Project))).length =
          MAX_HISTORY_LENGTH) :=
  ⟨by decide, history_cap _ (by decide)⟩

/-! ## Widget removal (C5, C10) -/

theorem mem_updateFirstWhere {α : Type} (pred : α → Bool) (f : α → α)
    (l : List α) (a : α) (ha : a ∈ updateFirstWhere pred f l) :
    a ∈ l ∨ ∃ b, b ∈ l ∧ pred b = true ∧ a = f b := by
  induction l with
  | nil => simp [updateFirstWhere] at ha
  | cons x t ih =>
    unfold updateFirstWhere at ha
    by_cases hx : pred x = true
    · rw [if_pos hx] at ha
      rcases List.mem_cons.mp ha with h | h
      · exact Or.inr ⟨x, List.mem_cons_self x t, hx, h⟩
      · exact Or.inl (List.mem_cons_of_mem x h)
    · rw [if_neg hx] at ha
      rcases List.mem_cons.mp ha with h | h
      · exact Or.inl (h ▸ List.mem_cons_self x t)
      · rcases ih h with h' | ⟨b, hb, hpb, hab⟩
        · exact Or.inl (List.mem_cons_of_mem x h')
        · exact Or.inr ⟨b, List.mem_cons_of_mem x hb, hpb, hab⟩

theorem stripChildFromFolder_id_parentId (id : String) (pw : Widget) :
    (stripChildFromFolder id pw).id = pw.id ∧
      (stripChildFromFolder id pw).parentId = pw.parentId := by
  unfold stripChildFromFolder
  cases hd : pw.data with
  | folder fd => cases hcl : fd.childrenLayouts <;> simp [hcl]
  | other s => simp

theorem removalBase_shape (p : Project) (id : String) (w : Widget)
    (hw : w ∈ removalBase p id) :
    ∃ w0, w0 ∈ (cleanProjectForSerialization p).widgets ∧
      w.id = w0.id ∧ w.parentId = w0.parentId := by
  unfold removalBase at hw
  split at hw
  · split at hw
    · split at hw
      · exact ⟨w, hw, rfl, rfl⟩
      · rcases mem_updateFirstWhere _ _ _ _ hw with h | ⟨b, hb, _, hab⟩
        · exact ⟨w, h, rfl, rfl⟩
        · refine ⟨b, hb, ?_, ?_⟩
          · rw [hab]; exact (stripChildFromFolder_id_parentId id b).1
          · rw [hab]; exact (stripChildFromFolder_id_parentId id b).2
    · exact ⟨w, hw, rfl, rfl⟩
  · exact ⟨w, hw, rfl, rfl⟩

/-- C5: removing a folder removes the folder and every widget whose
`parentId` is the folder's id, and no folder with the removed id (hence
none of its nested layouts) survives in the widget list; in particular no
surviving occurrence of the folder carries a nested-layout reference to a
removed id. -/
theorem removeFolder_removes_children (p : Project) (fid : String) (F : Widget)
    (hfind : (cleanProjectForSerialization p).widgets.find?
        (fun w => decide (w.id = fid)) = some F)
    (htype : F.type = WidgetType.folder) :
    (∀ w ∈ (handleRemoveWidget p fid).widgets, w.id ≠ fid ∧ w.parentId ≠ some fid) ∧
      (∀ w ∈ (handleRemoveWidget p fid).widgets, w.id = fid →
        ∀ fd, w.data = WidgetData.folder fd → ∀ ls, fd.childrenLayouts = some ls →
          ∀ e ∈ ls, ∀ l ∈ e.2, l.i ∉ removedWidgetIds p fid) := by
  have hfolder : removalTargetIsFolder p fid = true := by
    unfold removalTargetIsFolder
    rw [hfind]
    simp [htype]
  have hmain : ∀ w ∈ (handleRemoveWidget p fid).widgets,
      w.id ≠ fid ∧ w.parentId ≠ some fid := by
    intro w hw
    unfold handleRemoveWidget at hw
    simp only [List.mem_filter] at hw
    obtain ⟨hwbase, hwkeep⟩ := hw
    have hnotmem : w.id ∉ removedWidgetIds p fid := by
      intro hmem
      simp [hmem] at hwkeep
    constructor
    · intro hids
      exact hnotmem (by rw [hids]; exact List.mem_cons_self _ _)
    · intro hpar
      rcases removalBase_shape p fid w hwbase with ⟨w0, hw0, hid0, hpar0⟩
      apply hnotmem
      rw [hid0]
      unfold removedWidgetIds
      rw [if_pos hfolder]
      refine List.mem_cons_of_mem _ ?_
      refine List.mem_map.mpr ⟨w0, ?_, rfl⟩
      refine List.mem_filter.mpr ⟨hw0, ?_⟩
      rw [← hpar0, hpar]
      simp
  refine ⟨hmain, ?_⟩
  intro w hw hwid
  exact absurd hwid (hmain w hw).1

theorem removeFolder_removes_children_witness :
    ((cleanProjectForSerialization removalDemoProject).widgets.find?
        (fun w => decide (w.id = "f")) = some removalDemoFolder) ∧
      removalDemoFolder.type = WidgetType.folder ∧
      ((∀ w ∈ (handleRemoveWidget removalDemoProject "f").widgets,
          w.id ≠ "f" ∧ w.parentId ≠ some "f") ∧
        (∀ w ∈ (handleRemoveWidget removalDemoProject "f").widgets, w.id = "f" →
          ∀ fd, w.data = WidgetData.folder fd → ∀ ls, fd.childrenLayouts = some ls →
            ∀ e ∈ ls, ∀ l ∈ e.2, l.i ∉ removedWidgetIds removalDemoProject "f")) :=
  ⟨by decide, by decide,
   removeFolder_removes_children removalDemoProject "f" removalDemoFolder
     (by decide) (by decide)⟩

/-- C10: `handleRemoveWidget` writes only the `widgets` field — the
top-level per-breakpoint layouts map and every other project field are left
unchanged, so layout entries referencing removed widgets remain present at
every breakpoint. -/
theorem handleRemoveWidget_frame (p : Project) (id : String) :
    (handleRemoveWidget p id).layouts = p.layouts ∧
      (handleRemoveWidget p id).id = p.id ∧
      (handleRemoveWidget p id).name = p.name ∧
      (handleRemoveWidget p id).emoji = p.emoji ∧
      (handleRemoveWidget p id).owner_uid = p.owner_uid ∧
      (handleRemoveWidget p id).member_uids = p.member_uids ∧
      (handleRemoveWidget p id).participant_uids = p.participant_uids ∧
      (handleRemoveWidget p id).isTeamProject = p.isTeamProject :=
  ⟨rfl, rfl, rfl, rfl, rfl, rfl, rfl, rfl⟩

/-! ## Grid placement (C1, C8, C9) -/

theorem xCandidates_bound (w C x : Int) (hw : w ≤ C) (hx : x ∈ xCandidates w C) :
    0 ≤ x ∧ x + w ≤ C := by
  unfold xCandidates at hx
  rcases List.mem_map.mp hx with ⟨n, hn, rfl⟩
  have hn' : n < (C - w + 1).toNat := List.mem_range.mp hn
  have hpos : (0 : Int) ≤ C - w + 1 := by omega
  have hcast : ((C - w + 1).toNat : Int) = C - w + 1 := Int.toNat_of_nonneg hpos
  have h2 : (n : Int) < ((C - w + 1).toNat : Int) := by exact_mod_cast hn'
  rw [hcast] at h2
  have hofnat : Int.ofNat n = (n : Int) := rfl
  rw [hofnat]
  omega

theorem foldl_max_le_init (L : List LayoutItem) (init : Int) :
    init ≤ L.foldl (fun m l => max m (l.y + l.h)) init := by
  induction L generalizing init with
  | nil => simp
  | cons a t ih =>
    simp only [List.foldl_cons]
    exact le_trans (le_max_left _ _) (ih _)

theorem le_maxBottom (L : List LayoutItem) (l : LayoutItem) (hl : l ∈ L) :
    l.y + l.h ≤ maxBottom L := by
  unfold maxBottom
  generalize (0 : Int) = init
  induction L generalizing init with
  | nil => cases hl
  | cons a t ih =>
    simp only [List.foldl_cons]
    rcases List.mem_cons.mp hl with rfl | h
    · exact le_trans (le_max_right _ _) (foldl_max_le_init _ _)
    · exact ih h _

theorem isColliding_fallback (item0 : LayoutItem) (L : List LayoutItem) :
    isColliding { item0 with x := 0, y := maxBottom L } L = false := by
  unfold isColliding
  rw [List.any_eq_false]
  intro ex hex
  have hle := le_maxBottom L ex hex
  simp only [decide_eq_true_eq, not_and, not_lt]
  intro _ _ h3
  omega

/-- C1: for any layout `L` with `C` columns and any footprint with
`w ≤ C`, the placement scan returns a cell whose rectangle overlaps no
rectangle of `L` and which fits within the columns (`x + w ≤ C`). -/
theorem place_no_collision (item0 : LayoutItem) (C : Int) (L : List LayoutItem)
    (hw : item0.w ≤ C) (_hnov : nonOverlapping L) :
    isColliding { item0 with x := (place item0 C L).1, y := (place item0 C L).2 } L
        = false ∧
      (place item0 C L).1 + item0.w ≤ C := by
  unfold place
  cases hscan : scanRows.findSome?
      (fun y => (findFreeX item0 C L y).map (fun x => (x, y))) with
  | none =>
    refine ⟨isColliding_fallback item0 L, ?_⟩
    simpa using hw
  | some c =>
    obtain ⟨y, hy, hfy⟩ := List.exists_of_findSome?_eq_some hscan
    rcases Option.map_eq_some'.mp hfy with ⟨x, hfx, rfl⟩
    unfold findFreeX at hfx
    have hxmem := List.mem_of_find?_eq_some hfx
    have hpred := List.find?_some hfx
    refine ⟨?_, ?_⟩
    · simpa using hpred
    · exact (xCandidates_bound item0.w C x hw hxmem).2

theorem place_no_collision_witness :
    placeDemoItem.w ≤ 12 ∧ nonOverlapping placeDemoLayout ∧
      (isColliding { placeDemoItem with
            x := (place placeDemoItem 12 placeDemoLayout).1,
            y := (place placeDemoItem 12 placeDemoLayout).2 } placeDemoLayout = false ∧
        (place placeDemoItem 12 placeDemoLayout).1 + placeDemoItem.w ≤ 12) :=
  ⟨by decide, by decide,
   place_no_collision placeDemoItem 12 placeDemoLayout (by decide) (by decide)⟩

/-- C8: the placement scan terminates; when every cell of rows `0..200`
collides, it returns the fallback `(0, maxY)`, which is itself a valid
(non-colliding, in-bounds) cell — even on a layout packed for 200+ rows. -/
theorem place_fallback (item0 : LayoutItem) (C : Int) (L : List LayoutItem)
    (hw : item0.w ≤ C)
    (hfull : ∀ y ∈ scanRows, ∀ x ∈ xCandidates item0.w C,
      isColliding { item0 with x := x, y := y } L = true) :
    place item0 C L = (0, maxBottom L) ∧
      isColliding { item0 with x := 0, y := maxBottom L } L = false ∧
      (0 : Int) + item0.w ≤ C := by
  have hnone : scanRows.findSome?
      (fun y => (findFreeX item0 C L y).map (fun x => (x, y))) = none := by
    rw [List.findSome?_eq_none_iff]
    intro y hy
    rw [Option.map_eq_none']
    unfold findFreeX
    rw [List.find?_eq_none]
    intro x hx
    simp [hfull y hy x hx]
  unfold place
  rw [hnone]
  refine ⟨rfl, isColliding_fallback item0 L, ?_⟩
  simpa using hw

set_option maxRecDepth 10000 in
theorem place_fallback_witness :
    packedDemoItem.w ≤ 1 ∧
      (∀ y ∈ scanRows, ∀ x ∈ xCandidates packedDemoItem.w 1,
        isColliding { packedDemoItem with x := x, y := y } packedDemoLayout = true) ∧
      (place packedDemoItem 1 packedDemoLayout = (0, maxBottom packedDemoLayout) ∧
        isColliding { packedDemoItem with x := 0, y := maxBottom packedDemoLayout }
            packedDemoLayout = false ∧
        (0 : Int) + packedDemoItem.w ≤ 1) :=
  ⟨by decide, by decide,
   place_fallback packedDemoItem 1 packedDemoLayout (by decide) (by decide)⟩

set_option maxRecDepth 10000 in
/-- C9: starting from an empty 12-column "lg" layout, three widgets of
minimum footprint (4,2) are placed at (0,0), (4,0), (8,0), and a fourth
identical widget at (0,2). -/
theorem first_fit_min_footprint_sequence :
    place (newTopLevelLayoutItem "w1" false 4 2 4 2 12) 12 [] = (0, 0) ∧
      place (newTopLevelLayoutItem "w2" false 4 2 4 2 12) 12
          (addItem (newTopLevelLayoutItem "w1" false 4 2 4 2 12) 12 []) = (4, 0) ∧
      place (newTopLevelLayoutItem "w3" false 4 2 4 2 12) 12
          (addItem (newTopLevelLayoutItem "w2" false 4 2 4 2 12) 12
            (addItem (newTopLevelLayoutItem "w1" false 4 2 4 2 12) 12 [])) = (8, 0) ∧
      place (newTopLevelLayoutItem "w4" false 4 2 4 2 12) 12
          (addItem (newTopLevelLayoutItem "w3" false 4 2 4 2 12) 12
            (addItem (newTopLevelLayoutItem "w2" false 4 2 4 2 12) 12
              (addItem (newTopLevelLayoutItem "w1" false 4 2 4 2 12) 12 []))) = (0, 2) := by
  decide

/-! ## Folder height recomputation (C7) -/

theorem find?_updateFirstWhere {α : Type} (pred : α → Bool) (f : α → α) (l : List α)
    (a : α) (hfind : l.find? pred = some a) (hfa : pred (f a) = true) :
    (updateFirstWhere pred f l).find? pred = some (f a) := by
  induction l with
  | nil => simp at hfind
  | cons x t ih =>
    by_cases hx : pred x = true
    · rw [List.find?_cons_of_pos _ hx] at hfind
      injection hfind with h
      subst h
      unfold updateFirstWhere
      rw [if_pos hx]
      exact List.find?_cons_of_pos _ hfa
    · rw [List.find?_cons_of_neg _ hx] at hfind
      unfold updateFirstWhere
      rw [if_neg hx, List.find?_cons_of_neg _ hx]
      exact ih hfind

theorem recomputeFolderItemH_empty (folderDefH : Int)
    (childrenLayout : Option (List LayoutItem))
    (h : childrenLayout = none ∨ childrenLayout = some []) :
    recomputeFolderItemH folderDefH childrenLayout = folderDefH := by
  rcases h with rfl | rfl <;> simp [recomputeFolderItemH]

theorem findCons_pos {α : Type} (p : α → Bool) (a : α) (l : List α) (h : p a = true) :
    (a :: l).find? p = some a := List.find?_cons_of_pos l h

theorem findCons_neg {α : Type} (p : α → Bool) (a : α) (l : List α) (h : ¬ p a = true) :
    (a :: l).find? p = l.find? p := List.find?_cons_of_neg l h

theorem lookupBp_updateFirstWhere_ne (ls : Layouts) (bp bp' : String)
    (g : String × List LayoutItem → String × List LayoutItem)
    (hg : ∀ e, (g e).1 = e.1) (hne : bp ≠ bp') :
    lookupBp (updateFirstWhere (fun e => decide (e.1 = bp')) g ls) bp = lookupBp ls bp := by
  induction ls with
  | nil => rfl
  | cons e t ih =>
    by_cases he : decide (e.1 = bp') = true
    · unfold updateFirstWhere
      rw [if_pos he]
      have hkey : e.1 ≠ bp := by
        have h1 : e.1 = bp' := of_decide_eq_true he
        rw [h1]
        exact fun hh => hne hh.symm
      unfold lookupBp
      rw [findCons_neg (fun x => decide (x.1 = bp)) (g e) t (by simp [hg e, hkey]),
          findCons_neg (fun x => decide (x.1 = bp)) e t (by simp [hkey])]
    · unfold updateFirstWhere
      rw [if_neg he]
      by_cases hbp : decide (e.1 = bp) = true
      · unfold lookupBp
        rw [findCons_pos (fun x => decide (x.1 = bp)) e _ hbp,
            findCons_pos (fun x => decide (x.1 = bp)) e t hbp]
      · unfold lookupBp
        rw [findCons_neg (fun x => decide (x.1 = bp)) e _ hbp,
            findCons_neg (fun x => decide (x.1 = bp)) e t hbp]
        exact ih

theorem lookupBp_updateFirstWhere_self (ls : Layouts) (bp : String)
    (g : List LayoutItem → List LayoutItem) (L : List LayoutItem)
    (hL : lookupBp ls bp = some L) :
    lookupBp (updateFirstWhere (fun e => decide (e.1 = bp)) (fun e => (e.1, g e.2)) ls) bp
      = some (g L) := by
  induction ls with
  | nil => simp [lookupBp] at hL
  | cons e t ih =>
    by_cases he : decide (e.1 = bp) = true
    · unfold lookupBp at hL
      rw [findCons_pos (fun x => decide (x.1 = bp)) e t he] at hL
      simp only [Option.map_some'] at hL
      injection hL with hL
      unfold updateFirstWhere
      rw [if_pos he]
      unfold lookupBp
      rw [findCons_pos (fun x => decide (x.1 = bp)) (e.1, g e.2) t he]
      simp [hL]
    · unfold updateFirstWhere
      rw [if_neg he]
      unfold lookupBp at hL ⊢
      rw [findCons_neg (fun x => decide (x.1 = bp)) e t he] at hL
      rw [findCons_neg (fun x => decide (x.1 = bp)) e _ he]
      exact ih hL

theorem childStep_lookup_ne (dH : Int) (fid : String) (coll : Bool) (ccl : Layouts)
    (acc : Layouts × Option Int) (bp bp' : String) (hne : bp ≠ bp') :
    lookupBp (childLayoutHeightStep dH fid coll ccl acc bp').1 bp = lookupBp acc.1 bp := by
  unfold childLayoutHeightStep
  cases h1 : lookupBp acc.1 bp' with
  | none => rfl
  | some layout =>
    cases h2 : layout.find? (fun l => decide (l.i = fid)) with
    | none => simp only [h2]
    | some it =>
      simp only [h2]
      by_cases hc : coll = true
      · rw [if_pos hc]
      · rw [if_neg hc]
        exact lookupBp_updateFirstWhere_ne acc.1 bp bp'
          (fun e => (e.1,
            setFolderItemH (recomputeFolderItemH dH (lookupBp ccl bp')) fid e.2))
          (fun e => rfl) hne

theorem childStep_lookup_self (dH : Int) (fid : String) (ccl : Layouts)
    (acc : Layouts × Option Int) (bp : String) (L : List LayoutItem) (it : LayoutItem)
    (hL : lookupBp acc.1 bp = some L)
    (hit : L.find? (fun l => decide (l.i = fid)) = some it) :
    lookupBp (childLayoutHeightStep dH fid false ccl acc bp).1 bp =
      some (setFolderItemH (recomputeFolderItemH dH (lookupBp ccl bp)) fid L) := by
  unfold childLayoutHeightStep
  rw [hL]
  simp only [hit]
  rw [if_neg (by simp)]
  exact lookupBp_updateFirstWhere_self acc.1 bp
    (setFolderItemH (recomputeFolderItemH dH (lookupBp ccl bp)) fid) L hL

theorem childStep_foldl_not_mem (dH : Int) (fid : String) (coll : Bool) (ccl : Layouts)
    (K : List String) (bp : String) (hbp : bp ∉ K) :
    ∀ acc : Layouts × Option Int,
      lookupBp (K.foldl (childLayoutHeightStep dH fid coll ccl) acc).1 bp
        = lookupBp acc.1 bp := by
  induction K with
  | nil => intro acc; rfl
  | cons k K' ih =>
    intro acc
    rw [List.foldl_cons]
    have hne : bp ≠ k := fun h => hbp (h ▸ List.mem_cons_self k K')
    rw [ih (fun h => hbp (List.mem_cons_of_mem k h)) _]
    exact childStep_lookup_ne dH fid coll ccl acc bp k hne

theorem childStep_foldl_mem (dH : Int) (fid : String) (ccl : Layouts)
    (K : List String) (bp : String) (hbp : bp ∈ K) (hnd : K.Nodup) :
    ∀ (acc : Layouts × Option Int) (L : List LayoutItem) (it : LayoutItem),
      lookupBp acc.1 bp = some L →
      L.find? (fun l => decide (l.i = fid)) = some it →
      lookupBp (K.foldl (childLayoutHeightStep dH fid false ccl) acc).1 bp
        = some (setFolderItemH (recomputeFolderItemH dH (lookupBp ccl bp)) fid L) := by
  induction K with
  | nil => cases hbp
  | cons k K' ih =>
    intro acc L it hL hit
    rw [List.foldl_cons]
    rcases List.mem_cons.mp hbp with rfl | hbp'
    · have hnotmem : bp ∉ K' := (List.nodup_cons.mp hnd).1
      rw [childStep_foldl_not_mem dH fid false ccl K' bp hnotmem]
      exact childStep_lookup_self dH fid ccl acc bp L it hL hit
    · have hne : bp ≠ k := by
        intro h
        subst h
        exact (List.nodup_cons.mp hnd).1 hbp'
      have hstep := childStep_lookup_ne dH fid false ccl acc bp k hne
      exact ih hbp' (List.nodup_cons.mp hnd).2 _ L it (by rw [hstep]; exact hL) hit

/-- C7: when an expanded folder's nested children layout at a breakpoint is
empty (absent or `[]`), the recomputed row-span of the folder's layout
entry at that breakpoint is exactly the folder's minimum height — the
folder default height flooring `max(minimumHeight, computedHeight)` — with
no children contributing rows. -/
theorem childrenLayoutChange_empty (folderDefH : Int) (p : Project) (folderId : String)
    (acl : Layouts) (bp : String) (folder : Widget) (L : List LayoutItem) (it : LayoutItem)
    (hfind : (cleanProjectForSerialization p).widgets.find?
        (fun w => decide (w.id = folderId)) = some folder)
    (hexp : (asFolderData folder.data).isCollapsed = false)
    (hbp : bp ∈ GRID_COLS.map Prod.fst)
    (hempty : lookupBp (cleanAllLayouts acl) bp = none ∨
      lookupBp (cleanAllLayouts acl) bp = some [])
    (hL : lookupBp (cleanProjectForSerialization p).layouts bp = some L)
    (hit : L.find? (fun l => decide (l.i = folderId)) = some it) :
    (lookupBp (handleChildrenLayoutChange folderDefH p folderId acl).layouts bp).map
        (fun L2 => (L2.find? (fun l => decide (l.i = folderId))).map LayoutItem.h)
      = some (some folderDefH) := by
  unfold handleChildrenLayoutChange
  rw [hfind]
  simp only [hexp]
  have hnd : (GRID_COLS.map Prod.fst).Nodup := by decide
  rw [childStep_foldl_mem folderDefH folderId (cleanAllLayouts acl)
        (GRID_COLS.map Prod.fst) bp hbp hnd
        ((cleanProjectForSerialization p).layouts, (asFolderData folder.data).expandedH)
        L it hL hit]
  rw [recomputeFolderItemH_empty folderDefH _ hempty]
  have hfound := find?_updateFirstWhere (fun l => decide (l.i = folderId))
      (fun l => { l with h := folderDefH }) L it hit
      (by simpa using List.find?_some hit)
  simp only [Option.map_some']
  unfold setFolderItemH
  rw [hfound]
  rfl

theorem childrenLayoutChange_empty_witness :
    ((cleanProjectForSerialization heightDemoProject).widgets.find?
        (fun w => decide (w.id = "f")) = some heightDemoFolder) ∧
      (asFolderData heightDemoFolder.data).isCollapsed = false ∧
      "lg" ∈ GRID_COLS.map Prod.fst ∧
      (lookupBp (cleanAllLayouts []) "lg" = none ∨
        lookupBp (cleanAllLayouts []) "lg" = some []) ∧
      lookupBp (cleanProjectForSerialization heightDemoProject).layouts "lg" =
        some [{ i := "f", x := 0, y := 0, w := 4, h := 9 }] ∧
      ([{ i := "f", x := 0, y := 0, w := 4, h := 9 }] : List LayoutItem).find?
          (fun l => decide (l.i = "f")) =
        some { i := "f", x := 0, y := 0, w := 4, h := 9 } ∧
      (lookupBp (handleChildrenLayoutChange 6 heightDemoProject "f" []).layouts "lg").map
          (fun L2 => (L2.find? (fun l => decide (l.i = "f"))).map LayoutItem.h)
        = some (some 6) :=
  ⟨by decide, by decide, by decide, Or.inl (by decide), by decide, by decide,
   childrenLayoutChange_empty 6 heightDemoProject "f" [] "lg" heightDemoFolder
     [{ i := "f", x := 0, y := 0, w := 4, h := 9 }]
     { i := "f", x := 0, y := 0, w := 4, h := 9 }
     (by decide) (by decide) (by decide) (Or.inl (by decide)) (by decide) (by decide)⟩

/-! ## Folder collapse/expand (C6)

List and sanitizer helpers used to reason about a second toggle applied to
the result of a first one. -/

theorem map_eq_self_forall {α : Type} (f : α → α) (l : List α) (h : l.map f = l) :
    ∀ a ∈ l, f a = a := by
  induction l with
  | nil => intro a ha; cases ha
  | cons x t ih =>
    rw [List.map_cons] at h
    injection h with h1 h2
    intro a ha
    rcases List.mem_cons.mp ha with rfl | ha'
    · exact h1
    · exact ih h2 a ha'

theorem map_id_of_forall {α : Type} (f : α → α) (l : List α) (h : ∀ a ∈ l, f a = a) :
    l.map f = l := by
  induction l with
  | nil => rfl
  | cons x t ih =>
    rw [List.map_cons, h x (List.mem_cons_self x t),
        ih (fun a ha => h a (List.mem_cons_of_mem x ha))]

theorem mem_updateFirstWhere_of_find? {α : Type} (pred : α → Bool) (f : α → α)
    (l : List α) (a b : α) (hfind : l.find? pred = some b)
    (ha : a ∈ updateFirstWhere pred f l) : a ∈ l ∨ a = f b := by
  induction l with
  | nil => simp at hfind
  | cons x t ih =>
    by_cases hx : pred x = true
    · rw [findCons_pos pred x t hx] at hfind
      injection hfind with hb
      subst hb
      unfold updateFirstWhere at ha
      rw [if_pos hx] at ha
      rcases List.mem_cons.mp ha with h | h
      · exact Or.inr h
      · exact Or.inl (List.mem_cons_of_mem x h)
    · rw [findCons_neg pred x t hx] at hfind
      unfold updateFirstWhere at ha
      rw [if_neg hx] at ha
      rcases List.mem_cons.mp ha with rfl | h
      · exact Or.inl (List.mem_cons_self _ _)
      · rcases ih hfind h with h' | h'
        · exact Or.inl (List.mem_cons_of_mem x h')
        · exact Or.inr h'

theorem cleanLayoutItem_h_update (l : LayoutItem) (v : Int) :
    cleanLayoutItem { l with h := v } = { cleanLayoutItem l with h := v } := rfl

theorem widgets_clean_of_clean (p : Project)
    (hp : cleanProjectForSerialization p = p) :
    ∀ w ∈ p.widgets, cleanWidget w = w :=
  map_eq_self_forall _ _ (congrArg Project.widgets hp)

theorem layouts_clean_of_clean (p : Project)
    (hp : cleanProjectForSerialization p = p) :
    ∀ e ∈ p.layouts, e.2.map cleanLayoutItem = e.2 := by
  intro e he
  have h := map_eq_self_forall _ _ (congrArg Project.layouts hp) e he
  have h2 := congrArg Prod.snd h
  simpa using h2

theorem clean_of_parts (q : Project)
    (hw : q.widgets.map cleanWidget = q.widgets)
    (hl : cleanAllLayouts q.layouts = q.layouts) :
    cleanProjectForSerialization q = q := by
  unfold cleanProjectForSerialization
  rw [hw, hl]

theorem folderData_clean_of_cleanWidget (F : Widget) (hF : cleanWidget F = F)
    (htype : F.type = WidgetType.folder) :
    Option.map cleanAllLayouts (asFolderData F.data).childrenLayouts =
      (asFolderData F.data).childrenLayouts := by
  have hdata : cleanWidgetData F.type F.data = F.data := congrArg Widget.data hF
  rw [htype] at hdata
  cases hd : F.data with
  | folder fd0 =>
    rw [hd] at hdata
    unfold cleanWidgetData at hdata
    simp only [] at hdata
    injection hdata with h
    have h2 := congrArg FolderData.childrenLayouts h
    simp only [] at h2
    simp [asFolderData, h2]
  | other s => simp [asFolderData]

theorem updateFirstWhere_of_forall_neg {α : Type} (pred : α → Bool) (f : α → α)
    (l : List α) (h : ∀ a ∈ l, ¬ pred a = true) : updateFirstWhere pred f l = l := by
  induction l with
  | nil => rfl
  | cons x t ih =>
    unfold updateFirstWhere
    rw [if_neg (h x (List.mem_cons_self x t)),
        ih (fun a ha => h a (List.mem_cons_of_mem x ha))]

/-- Unfolding of `handleToggleFolder` on a sanitized project in which the
folder is found expanded: the collapse direction. -/
theorem handleToggleFolder_eq_of_expanded (defH defMinH : Int) (p : Project)
    (wid : String) (F : Widget)
    (hp : cleanProjectForSerialization p = p)
    (hfind : p.widgets.find?
        (fun w => decide (w.id = wid ∧ w.type = WidgetType.folder)) = some F)
    (hexp : (asFolderData F.data).isCollapsed = false) :
    handleToggleFolder defH defMinH p wid =
      { p with
        widgets := updateFirstWhere
            (fun w => decide (w.id = wid ∧ w.type = WidgetType.folder))
            (fun w => { w with
              data := WidgetData.folder { asFolderData F.data with
                isCollapsed := true,
                expandedH := match cachedCollapseH wid p.layouts with
                  | some hh => some hh
                  | none => (asFolderData F.data).expandedH } })
            p.widgets,
        layouts := toggleLayouts (collapsedHOf defMinH F) wid p.layouts } := by
  unfold handleToggleFolder
  rw [hp, hfind]
  simp only [hexp, Bool.not_false, eq_self_iff_true, if_true]

/-- Unfolding of `handleToggleFolder` on a sanitized project in which the
folder is found collapsed: the expand direction. -/
theorem handleToggleFolder_eq_of_collapsed (defH defMinH : Int) (p : Project)
    (wid : String) (F : Widget)
    (hp : cleanProjectForSerialization p = p)
    (hfind : p.widgets.find?
        (fun w => decide (w.id = wid ∧ w.type = WidgetType.folder)) = some F)
    (hcoll : (asFolderData F.data).isCollapsed = true) :
    handleToggleFolder defH defMinH p wid =
      { p with
        widgets := updateFirstWhere
            (fun w => decide (w.id = wid ∧ w.type = WidgetType.folder))
            (fun w => { w with
              data := WidgetData.folder { asFolderData F.data with
                isCollapsed := false,
                expandedH := (asFolderData F.data).expandedH } })
            p.widgets,
        layouts := toggleLayouts (expandHOf defH (asFolderData F.data).expandedH)
            wid p.layouts } := by
  unfold handleToggleFolder
  rw [hp, hfind]
  simp only [hcoll, Bool.not_true, Bool.false_eq_true, if_false]

theorem updateFirstWhere_cons {α : Type} (pred : α → Bool) (f : α → α) (a : α)
    (t : List α) :
    updateFirstWhere pred f (a :: t) =
      if pred a then f a :: t else a :: updateFirstWhere pred f t := rfl

theorem setFolderItemH_restore (wid : String) (H c : Int) (L : List LayoutItem)
    (hH : ∀ l ∈ L, l.i = wid → l.h = H) :
    setFolderItemH H wid (setFolderItemH c wid L) = L := by
  induction L with
  | nil => rfl
  | cons l t ih =>
    by_cases hl : decide (l.i = wid) = true
    · have hlh : l.h = H := hH l (List.mem_cons_self _ _) (of_decide_eq_true hl)
      have hinner : setFolderItemH c wid (l :: t) = { l with h := c } :: t := by
        unfold setFolderItemH updateFirstWhere
        rw [if_pos hl]
      rw [hinner]
      have houter : setFolderItemH H wid (({ l with h := c } : LayoutItem) :: t)
          = { ({ l with h := c } : LayoutItem) with h := H } :: t := by
        unfold setFolderItemH updateFirstWhere
        rw [if_pos (show decide ((({ l with h := c } : LayoutItem)).i = wid) = true from hl)]
      rw [houter]
      have hitem : ({ l with h := H } : LayoutItem) = l := by rw [← hlh]
      rw [show ({ ({ l with h := c } : LayoutItem) with h := H } : LayoutItem)
            = ({ l with h := H } : LayoutItem) from rfl, hitem]
    · have hinner : setFolderItemH c wid (l :: t) = l :: setFolderItemH c wid t := by
        unfold setFolderItemH
        rw [updateFirstWhere_cons, if_neg hl]
      rw [hinner]
      have houter : setFolderItemH H wid (l :: setFolderItemH c wid t)
          = l :: setFolderItemH H wid (setFolderItemH c wid t) := by
        unfold setFolderItemH
        rw [updateFirstWhere_cons, if_neg hl]
      rw [houter, ih (fun a ha hai => hH a (List.mem_cons_of_mem l ha) hai)]

theorem toggleLayouts_restore (wid : String) (H c : Int) (ls : Layouts)
    (hH : ∀ e ∈ ls, ∀ l ∈ e.2, l.i = wid → l.h = H) :
    toggleLayouts H wid (toggleLayouts c wid ls) = ls := by
  unfold toggleLayouts
  rw [List.map_map]
  apply map_id_of_forall
  intro e he
  simp only [Function.comp]
  rw [setFolderItemH_restore wid H c e.2 (hH e he)]

theorem cachedCollapseH_spec (wid : String) (H : Int) (ls : Layouts)
    (hH : ∀ e ∈ ls, ∀ l ∈ e.2, l.i = wid → l.h = H) :
    cachedCollapseH wid ls = none ∨ cachedCollapseH wid ls = some H := by
  unfold cachedCollapseH
  cases hlast : (ls.filterMap
      (fun e => (e.2.find? (fun l => decide (l.i = wid))).map LayoutItem.h)).getLast? with
  | none => exact Or.inl rfl
  | some hh =>
    right
    have hmem := List.mem_of_mem_getLast? hlast
    rcases List.mem_filterMap.mp hmem with ⟨e, he, hfe⟩
    rcases Option.map_eq_some'.mp hfe with ⟨item, hitem, hih⟩
    have himem := List.mem_of_find?_eq_some hitem
    have hpred := List.find?_some hitem
    have hhH : item.h = H := hH e he item himem (of_decide_eq_true hpred)
    rw [← hih, hhH]

theorem cachedCollapseH_none_find (wid : String) (ls : Layouts)
    (h : cachedCollapseH wid ls = none) :
    ∀ e ∈ ls, e.2.find? (fun l => decide (l.i = wid)) = none := by
  unfold cachedCollapseH at h
  rw [List.getLast?_eq_none_iff, List.filterMap_eq_nil_iff] at h
  intro e he
  exact Option.map_eq_none'.mp (h _ he)

theorem cleanWidget_folder_update (F : Widget) (hF : cleanWidget F = F)
    (htype : F.type = WidgetType.folder) (fd1 : FolderData)
    (hcl : Option.map cleanAllLayouts fd1.childrenLayouts = fd1.childrenLayouts) :
    cleanWidget { F with data := WidgetData.folder fd1 } =
      { F with data := WidgetData.folder fd1 } := by
  have hpar : truthyStr F.parentId = F.parentId := congrArg Widget.parentId hF
  unfold cleanWidget
  simp only [htype]
  unfold cleanWidgetData
  simp only [hcl, hpar]

/-- Sanitizing the literal produced by either toggle direction is the
identity, given a sanitized starting project. -/
theorem clean_toggle_parts (p : Project) (wid : String) (F : Widget)
    (hp : cleanProjectForSerialization p = p)
    (hfind : p.widgets.find?
        (fun w => decide (w.id = wid ∧ w.type = WidgetType.folder)) = some F)
    (fd1 : FolderData)
    (hcl : Option.map cleanAllLayouts fd1.childrenLayouts = fd1.childrenLayouts)
    (newH : Int) :
    cleanProjectForSerialization
        { p with
          widgets := updateFirstWhere
              (fun w => decide (w.id = wid ∧ w.type = WidgetType.folder))
              (fun w => { w with data := WidgetData.folder fd1 }) p.widgets,
          layouts := toggleLayouts newH wid p.layouts }
      = { p with
          widgets := updateFirstWhere
              (fun w => decide (w.id = wid ∧ w.type = WidgetType.folder))
              (fun w => { w with data := WidgetData.folder fd1 }) p.widgets,
          layouts := toggleLayouts newH wid p.layouts } := by
  apply clean_of_parts
  · apply map_id_of_forall
    intro w hw
    rcases mem_updateFirstWhere_of_find? _ _ _ w F hfind hw with h | h
    · exact widgets_clean_of_clean p hp w h
    · have hFmem := List.mem_of_find?_eq_some hfind
      have hFclean := widgets_clean_of_clean p hp F hFmem
      have hFpred := List.find?_some hfind
      have htype : F.type = WidgetType.folder := (of_decide_eq_true hFpred).2
      rw [h]
      exact cleanWidget_folder_update F hFclean htype fd1 hcl
  · unfold toggleLayouts cleanAllLayouts
    show List.map (fun e => (e.1, List.map cleanLayoutItem e.2))
          (List.map (fun e => (e.1, setFolderItemH newH wid e.2)) p.layouts)
        = List.map (fun e => (e.1, setFolderItemH newH wid e.2)) p.layouts
    rw [List.map_map]
    apply List.map_congr_left
    intro e he
    simp only [Function.comp]
    have hitems : ∀ l ∈ setFolderItemH newH wid e.2, cleanLayoutItem l = l := by
      intro l hl
      rcases mem_updateFirstWhere _ _ _ _ hl with h | ⟨b, hb, _, hab⟩
      · exact map_eq_self_forall _ _ (layouts_clean_of_clean p hp e he) l h
      · rw [hab, cleanLayoutItem_h_update,
            map_eq_self_forall _ _ (layouts_clean_of_clean p hp e he) b hb]
    rw [map_id_of_forall _ _ hitems]

/-- The result of `handleToggleFolder` on a sanitized project is itself
sanitized. -/
theorem clean_handleToggleFolder (defH defMinH : Int) (p : Project) (wid : String)
    (hp : cleanProjectForSerialization p = p) :
    cleanProjectForSerialization (handleToggleFolder defH defMinH p wid)
      = handleToggleFolder defH defMinH p wid := by
  cases hfind : p.widgets.find?
      (fun w => decide (w.id = wid ∧ w.type = WidgetType.folder)) with
  | none =>
    have heq : handleToggleFolder defH defMinH p wid = p := by
      unfold handleToggleFolder
      rw [hp, hfind]
    rw [heq]
    exact hp
  | some F =>
    have hFmem := List.mem_of_find?_eq_some hfind
    have hFclean := widgets_clean_of_clean p hp F hFmem
    have hFpred := List.find?_some hfind
    have htype : F.type = WidgetType.folder := (of_decide_eq_true hFpred).2
    have hcl := folderData_clean_of_cleanWidget F hFclean htype
    cases hcoll : (asFolderData F.data).isCollapsed with
    | false =>
      rw [handleToggleFolder_eq_of_expanded defH defMinH p wid F hp hfind hcoll]
      exact clean_toggle_parts p wid F hp hfind
        { asFolderData F.data with
          isCollapsed := true,
          expandedH := match cachedCollapseH wid p.layouts with
            | some hh => some hh
            | none => (asFolderData F.data).expandedH } hcl _
    | true =>
      rw [handleToggleFolder_eq_of_collapsed defH defMinH p wid F hp hfind hcoll]
      exact clean_toggle_parts p wid F hp hfind
        { asFolderData F.data with
          isCollapsed := false,
          expandedH := (asFolderData F.data).expandedH } hcl _

/-- C6 (amended): `handleToggleFolder` keeps a single `expandedH` cache
shared by all breakpoints — the collapse loop overwrites it once per
breakpoint, so the last breakpoint containing the folder's entry wins —
and the expand fallback is the folder default height, not the minimum.
Collapse-then-expand therefore restores every breakpoint's row-span
exactly when all of the folder's entries share one nonzero pre-collapse
height. -/
theorem toggleFolder_restores_equal_heights (defH defMinH H : Int) (p : Project)
    (wid : String) (F : Widget)
    (hp : cleanProjectForSerialization p = p)
    (hfind : p.widgets.find?
        (fun w => decide (w.id = wid ∧ w.type = WidgetType.folder)) = some F)
    (hexp : (asFolderData F.data).isCollapsed = false)
    (hH : ∀ e ∈ p.layouts, ∀ l ∈ e.2, l.i = wid → l.h = H)
    (hH0 : H ≠ 0) :
    (handleToggleFolder defH defMinH (handleToggleFolder defH defMinH p wid) wid).layouts
      = p.layouts := by
  have h1 := handleToggleFolder_eq_of_expanded defH defMinH p wid F hp hfind hexp
  have hp1 : cleanProjectForSerialization (handleToggleFolder defH defMinH p wid)
      = handleToggleFolder defH defMinH p wid :=
    clean_handleToggleFolder defH defMinH p wid hp
  have hFpred := List.find?_some hfind
  have hfind1 : (handleToggleFolder defH defMinH p wid).widgets.find?
      (fun w => decide (w.id = wid ∧ w.type = WidgetType.folder))
      = some { F with
          data := WidgetData.folder { asFolderData F.data with
            isCollapsed := true,
            expandedH := match cachedCollapseH wid p.layouts with
              | some hh => some hh
              | none => (asFolderData F.data).expandedH } } := by
    rw [h1]
    exact find?_updateFirstWhere _ _ p.widgets F hfind (by simpa using hFpred)
  have h2 := handleToggleFolder_eq_of_collapsed defH defMinH
      (handleToggleFolder defH defMinH p wid) wid _ hp1 hfind1 rfl
  rw [h2, h1]
  show toggleLayouts
      (expandHOf defH (match cachedCollapseH wid p.layouts with
        | some hh => some hh
        | none => (asFolderData F.data).expandedH))
      wid (toggleLayouts (collapsedHOf defMinH F) wid p.layouts) = p.layouts
  rcases cachedCollapseH_spec wid H p.layouts hH with hc | hc
  · have hnofind := cachedCollapseH_none_find wid p.layouts hc
    apply toggleLayouts_restore
    intro e he l hl hli
    exfalso
    exact List.find?_eq_none.mp (hnofind e he) l hl (by simpa using hli)
  · rw [hc]
    rw [show (match (some H : Option Int) with
          | some hh => some hh
          | none => (asFolderData F.data).expandedH) = some H from rfl]
    have hEH : expandHOf defH (some H) = H := by
      simp [expandHOf, hH0]
    rw [hEH]
    exact toggleLayouts_restore wid H (collapsedHOf defMinH F) p.layouts hH

theorem toggleFolder_restores_witness :
    (cleanProjectForSerialization toggleDemoProject = toggleDemoProject) ∧
      (toggleDemoProject.widgets.find?
          (fun w => decide (w.id = "f" ∧ w.type = WidgetType.folder))
        = some toggleDemoFolder) ∧
      (asFolderData toggleDemoFolder.data).isCollapsed = false ∧
      (∀ e ∈ toggleDemoProject.layouts, ∀ l ∈ e.2, l.i = "f" → l.h = 3) ∧
      (3 : Int) ≠ 0 ∧
      (handleToggleFolder 6 2 (handleToggleFolder 6 2 toggleDemoProject "f") "f").layouts
        = toggleDemoProject.layouts :=
  ⟨by decide, by decide, by decide, by decide, by decide,
   toggleFolder_restores_equal_heights 6 2 3 toggleDemoProject "f" toggleDemoFolder
     (by decide) (by decide) (by decide) (by decide) (by decide)⟩

/-- C6 counterexample: on `toggleCexProject` the folder is expanded with
row-span 3 at "lg" and 4 at "md".  Collapse-then-expand leaves "lg" at
height 4 — the cached height of the last breakpoint — not its pre-collapse
height 3, so ToggleFolder twice does not restore every breakpoint's
row-span to its exact pre-collapse value. -/
theorem toggleFolder_counterexample :
    (lookupBp (handleToggleFolder 6 2
          (handleToggleFolder 6 2 toggleCexProject "f") "f").layouts "lg").map
        (fun L => L.map LayoutItem.h) = some [4] ∧
      (lookupBp toggleCexProject.layouts "lg").map
        (fun L => L.map LayoutItem.h) = some [3] ∧
      (4 : Int) ≠ 3 :=
  ⟨by decide, by decide, by decide⟩
